import Mathlib

/-!
Verification of the derived-field computation and data-access layer of the
music_scripts repository (a post-processing toolkit for the MUSIC 2D
hydrodynamics code), against its natural-language specification.

The embedding translates the code of src/music_scripts, in particular
derived_fields.py (registry-based dispatch of named quantities), eos.py
(equation-of-state variants) and musicdata.py (run indexing, snapshot
enumeration, equation-of-state selection).  External collaborators
(pymusic labeled arrays, the music_mesa_tables lookup tables, numpy
reductions) are modelled through the narrow interfaces the core uses, as
documented in the spec: a labeled array is a value indexed by named axes,
table lookups are opaque functions carried as data, and numpy average and
mean have their usual weighted-sum semantics.
-/

namespace MusicScripts

/-- Python exception classes that the modelled code can raise.
`keyError` is raised by a failed dict or label lookup (the Not-Found
condition of the spec), `indexError` by out-of-bounds or missing-file
snapshot indexing, `typeError` by a call that does not match a function
signature, `valueError` by `max()` on an empty sequence, and
`recursionError` when the interpreter runs out of stack. -/
inductive PyErr where
  | keyError
  | indexError
  | typeError
  | valueError
  | recursionError
  deriving DecidableEq, Repr

/-- First index of a label in a label list, `none` when absent
(the lookup a pymusic `BigArray.xs` call performs on the axis labels). -/
def labelIndex? : List String → String → Option Nat
  | [], _ => none
  | l :: ls, lbl => if l = lbl then some 0 else (labelIndex? ls lbl).map (· + 1)

/-- Index of a label in a label list; missing labels are mapped to the
list length (an out-of-range position, only reachable when the caller
violated a documented precondition of `DerivedFieldArray`). -/
def labelIndex (ls : List String) (lbl : String) : Nat :=
  (labelIndex? ls lbl).getD ls.length

noncomputable section

/-- Model of a pymusic `BigArray` (external dependency, consumed through
its documented interface): an ordered list of axes, each a name with its
label sequence; a value at every assignment of an index to each axis
name; and the list of `slabbed` (chunked-evaluation) wrappers applied on
top, outermost first, which records the presentation (chunked or not)
without changing the values. -/
structure BigArray where
  axes : List (String × List String)
  val : (String → Nat) → ℝ
  slabs : List (String × Nat)

/-- Point an index assignment at position `i` of axis `ax`. -/
def updIdx (f : String → Nat) (ax : String) (i : Nat) : String → Nat :=
  fun a => if a = ax then i else f a

/-- Names of the axes of an array. -/
def BigArray.axisNames (a : BigArray) : List String :=
  a.axes.map Prod.fst

/-- Whether the array has an axis of the given name
(the `"time" in array.axes` test of the code). -/
def BigArray.hasAxis (a : BigArray) (ax : String) : Bool :=
  a.axes.any (fun p => p.1 = ax)

/-- Labels along one axis (empty for a missing axis). -/
def BigArray.axisLabels (a : BigArray) (ax : String) : List String :=
  ((a.axes.find? (fun p => p.1 = ax)).map Prod.snd).getD []

/-- Size of one axis. -/
def BigArray.axisSize (a : BigArray) (ax : String) : Nat :=
  (a.axisLabels ax).length

/-- Remove one axis from an axis list (axis names are unique within an
array, an invariant of the external library). -/
def dropAxis (axes : List (String × List String)) (ax : String) :
    List (String × List String) :=
  axes.filter (fun p => p.1 ≠ ax)

/-- The values along axis `ax` at an assignment of the remaining axes. -/
def BigArray.axisVals (a : BigArray) (ax : String) (f : String → Nat) : List ℝ :=
  (List.range (a.axisSize ax)).map (fun i => a.val (updIdx f ax i))

/-- Model of `BigArray.xs(label, axis)`: the fixed-axis slice at a label,
raising a Not-Found condition (KeyError) when the label is absent from
the axis. -/
def BigArray.xs (a : BigArray) (lbl ax : String) : Except PyErr BigArray :=
  match labelIndex? (a.axisLabels ax) lbl with
  | none => .error .keyError
  | some i =>
      .ok { axes := dropAxis a.axes ax
            val := fun f => a.val (updIdx f ax i)
            slabs := [] }

/-- Model of `BigArray.mean(axis)`: arithmetic mean along a named axis. -/
def BigArray.mean (a : BigArray) (ax : String) : BigArray :=
  { axes := dropAxis a.axes ax
    val := fun f => (a.axisVals ax f).sum / (a.axisSize ax : ℝ)
    slabs := [] }

/-- Model of `BigArray.collapse(func, axis)`: reduce a named axis with a
caller-supplied function of the one-dimensional slices along it. -/
def BigArray.collapse (a : BigArray) (op : List ℝ → ℝ) (ax : String) : BigArray :=
  { axes := dropAxis a.axes ax
    val := fun f => op (a.axisVals ax f)
    slabs := [] }

/-- Model of `BigArray.apply(func)`: elementwise mapping. -/
def BigArray.apply (a : BigArray) (g : ℝ → ℝ) : BigArray :=
  { axes := a.axes
    val := fun f => g (a.val f)
    slabs := [] }

/-- Model of `BigArray.sqrt()`: elementwise square root. -/
def BigArray.sqrtArr (a : BigArray) : BigArray :=
  a.apply Real.sqrt

/-- Model of `BigArray.slabbed(axis, chunk_size)`: same values, presented
in chunked (slabbed) form along the given axis; the wrapper is recorded
at the head of `slabs`. -/
def BigArray.slabbed (a : BigArray) (ax : String) (n : Nat) : BigArray :=
  { a with slabs := (ax, n) :: a.slabs }

/-- Value of the raw array at one label of the `var` axis (a helper to
read the inputs of a `DerivedFieldArray` computation). -/
def varVal (a : BigArray) (v : String) (f : String → Nat) : ℝ :=
  a.val (updIdx f "var" (labelIndex (a.axisLabels "var") v))

/-- Model of pymusic `DerivedFieldArray(array, axis, vars, func)`: the
array obtained by removing `axis` and applying `func` to the values of
the listed labels (positional, in list order).  Construction is lazy in
the code, so no label validation happens here; the spec makes label
presence the caller's responsibility. -/
def DerivedFieldArray (a : BigArray) (ax : String) (vars : List String)
    (func : List ℝ → ℝ) : BigArray :=
  { axes := dropAxis a.axes ax
    val := fun f =>
      func (vars.map (fun v => a.val (updIdx f ax (labelIndex (a.axisLabels ax) v))))
    slabs := [] }

/-- Model of `np.average(values, weights)` : the weighted average
`sum(w*x) / sum(w)` (values and weights of equal length in every use the
code makes of it). -/
def npAverage (xs weights : List ℝ) : ℝ :=
  ((xs.zip weights).map (fun p => p.1 * p.2)).sum / weights.sum

/-- Model of a pymusic one-dimensional grid: cell count, cell centers and
cell widths (the only accessors the core uses). -/
structure Grid1D where
  ncells : Nat
  cell_centers : Nat → ℝ
  cell_widths : Nat → ℝ

/-- Model of a pymusic `Grid`: `grids0` is the radial grid `grids[0]`,
`grids1` the colatitude grid `grids[1]`. -/
structure Grid where
  grids0 : Grid1D
  grids1 : Grid1D

/-- Quadrature weights of pymusic's `SphericalMidpointQuad1D` on a
colatitude grid: the midpoint rule on the sphere weights cell `i` by
`sin(theta_i) * dtheta_i` (positive for colatitudes inside `(0, pi)`). -/
def quadWeights (g : Grid1D) : List ℝ :=
  (List.range g.ncells).map (fun i => Real.sin (g.cell_centers i) * g.cell_widths i)

/-- The `average` method of `SphericalMidpointQuad1D`: the normalized
quadrature average of the values along the colatitude axis. -/
def sphQuadAverage (g : Grid1D) (xs : List ℝ) : ℝ :=
  npAverage xs (quadWeights g)

/-- The weights `d_rad * rad**2` of the volume-weighted radial collapse
in `TimeSeriesGetter.default_getter`. -/
def tsWeights (g : Grid1D) : List ℝ :=
  (List.range g.ncells).map (fun i => g.cell_widths i * (g.cell_centers i) ^ 2)

/-- The state variables of the external music_mesa_tables library used by
the code (`mmt.StateVar`). -/
inductive StateVar where
  | LogTemperature
  | LogPressure
  | LogPgas
  | LogEntropy
  | DTempDPresScst
  deriving DecidableEq, Repr

/-- The opaque lookup tables of the external music_mesa_tables library.
`cstMetal z he rho e v` models `CstMetalState(CstMetalEos(z), he, rho,
e).compute(v)` and `cstCompo z he rho e v` models
`CstCompoState(CstCompoEos(z, he), rho, e).compute(v)`. -/
structure MesaTables where
  cstMetal : ℝ → ℝ → ℝ → ℝ → StateVar → ℝ
  cstCompo : ℝ → ℝ → ℝ → ℝ → StateVar → ℝ

/-- The dataclass `MesaCstMetalEos(metallicity, he_scalar)` of eos.py:
MESA equation of state at constant metallicity, reading the helium
fraction from scalar number `he_scalar`. -/
structure MesaCstMetalEos where
  metallicity : ℝ
  he_scalar : Int

/-- The dataclass `MesaCstCompoEos(metallicity, he_frac)` of eos.py:
MESA equation of state at constant metallicity and helium fraction. -/
structure MesaCstCompoEos where
  metallicity : ℝ
  he_frac : ℝ

/-- The equation-of-state instances `MusicData.eos` can produce
(eos.py also defines `IdealGasMix2`, which `MusicData.eos` never
constructs and which has no `derive_arr` method, so it plays no part in
the claims under verification). -/
inductive EoS where
  | mesaCstMetal (e : MesaCstMetalEos)
  | mesaCstCompo (e : MesaCstCompoEos)

/-- `MesaCstMetalEos.derive_arr`: table lookup fed by `density`,
`e_int_spec` and the helium-fraction scalar `scalar_<he_scalar>`. -/
def MesaCstMetalEos.derive_arr (e : MesaCstMetalEos) (tables : MesaTables)
    (array : BigArray) (var : StateVar) : BigArray :=
  DerivedFieldArray array "var"
    ["density", "e_int_spec", "scalar_" ++ toString e.he_scalar]
    (fun vs =>
      match vs with
      | [rho, e_int, he_frac] => tables.cstMetal e.metallicity he_frac rho e_int var
      | _ => 0)

/-- `MesaCstCompoEos.derive_arr`: table lookup fed by `density` and
`e_int_spec` only, with the composition fixed by the parameters. -/
def MesaCstCompoEos.derive_arr (e : MesaCstCompoEos) (tables : MesaTables)
    (array : BigArray) (var : StateVar) : BigArray :=
  DerivedFieldArray array "var" ["density", "e_int_spec"]
    (fun vs =>
      match vs with
      | [rho, e_int] => tables.cstCompo e.metallicity e.he_frac rho e_int var
      | _ => 0)

/-- The single `derive_arr(array, state_var)` capability both variants
expose, dispatched on the variant. -/
def EoS.derive_arr (e : EoS) (tables : MesaTables) (array : BigArray)
    (var : StateVar) : BigArray :=
  match e with
  | .mesaCstMetal e => e.derive_arr tables array var
  | .mesaCstCompo e => e.derive_arr tables array var

/-- Model of the `BaseMusicData` capability set: grid, raw labeled array,
equation of state and geometry flag.  `tables` carries the ambient
external MESA lookup tables that `derive_arr` consults. -/
structure BaseMusicData where
  grid : Grid
  big_array : BigArray
  eos : EoS
  cartesian : Bool
  tables : MesaTables

/-- A registry of a `DataFetcher` subclass: the final contents of the
class-level `_handlers` dict, as (name, handler) pairs with distinct
names.  Handlers return `Except` because a handler body can raise. -/
abbrev Handlers (D U : Type) : Type :=
  List (String × (D → Except PyErr U))

/-- Dict lookup in a registry. -/
def lookupHandler {D U : Type} (hs : Handlers D U) (name : String) :
    Option (D → Except PyErr U) :=
  (hs.find? (fun p => p.1 = name)).map Prod.snd

/-- Model of `DataFetcher.__call__`: `try: return
self._handlers[self.var_name](obj) except KeyError: return
self.default_getter(obj)`.  The `except` block catches the KeyError of a
failed dict lookup, but equally a KeyError escaping the handler itself;
any other outcome of the handler is returned verbatim. -/
def fetcherCall {D U : Type} (hs : Handlers D U) (dflt : D → Except PyErr U)
    (name : String) (obj : D) : Except PyErr U :=
  match lookupHandler hs name with
  | some h =>
      match h obj with
      | .error .keyError => dflt obj
      | r => r
  | none => dflt obj

/-- The registered field handler `vel_ampl`. -/
def vel_ampl (bmdat : BaseMusicData) : Except PyErr BigArray :=
  .ok (DerivedFieldArray bmdat.big_array "var" ["vel_1", "vel_2"]
    (fun vs =>
      match vs with
      | [v1, v2] => Real.sqrt (v1 ^ 2 + v2 ^ 2)
      | _ => 0))

/-- The registered field handler `vel_square`. -/
def vel_square (bmdat : BaseMusicData) : Except PyErr BigArray :=
  .ok (DerivedFieldArray bmdat.big_array "var" ["vel_1", "vel_2"]
    (fun vs =>
      match vs with
      | [v1, v2] => v1 ^ 2 + v2 ^ 2
      | _ => 0))

/-- The registered field handler `ekin`. -/
def ekin (bmdat : BaseMusicData) : Except PyErr BigArray :=
  .ok (DerivedFieldArray bmdat.big_array "var" ["density", "vel_1", "vel_2"]
    (fun vs =>
      match vs with
      | [rho, v1, v2] => 0.5 * rho * (v1 ^ 2 + v2 ^ 2)
      | _ => 0))

/-- The registered field handler `vr_abs`. -/
def vr_abs (bmdat : BaseMusicData) : Except PyErr BigArray :=
  .ok (DerivedFieldArray bmdat.big_array "var" ["vel_1"]
    (fun vs =>
      match vs with
      | [v1] => |v1|
      | _ => 0))

/-- The registered field handler `vt_abs`. -/
def vt_abs (bmdat : BaseMusicData) : Except PyErr BigArray :=
  .ok (DerivedFieldArray bmdat.big_array "var" ["vel_2"]
    (fun vs =>
      match vs with
      | [v2] => |v2|
      | _ => 0))

/-- The registered field handler `vr_normalized`. -/
def vr_normalized (bmdat : BaseMusicData) : Except PyErr BigArray :=
  .ok (DerivedFieldArray bmdat.big_array "var" ["vel_1", "vel_2"]
    (fun vs =>
      match vs with
      | [v1, v2] => Real.sqrt (v1 ^ 2 / (v1 ^ 2 + v2 ^ 2))
      | _ => 0))

/-- The registered field handler `vt_normalized`. -/
def vt_normalized (bmdat : BaseMusicData) : Except PyErr BigArray :=
  .ok (DerivedFieldArray bmdat.big_array "var" ["vel_1", "vel_2"]
    (fun vs =>
      match vs with
      | [v1, v2] => Real.sqrt (v2 ^ 2 / (v1 ^ 2 + v2 ^ 2))
      | _ => 0))

/-- The registered field handler `log_temp`. -/
def log_temp (bmdat : BaseMusicData) : Except PyErr BigArray :=
  .ok (bmdat.eos.derive_arr bmdat.tables bmdat.big_array .LogTemperature)

/-- The registered field handler `temp`, which resolves `log_temp`
through the field registry (`bmdat.field["log_temp"]`, here the
recursive resolver `recur`) and exponentiates. -/
def temp (recur : String → BaseMusicData → Except PyErr BigArray)
    (bmdat : BaseMusicData) : Except PyErr BigArray :=
  (recur "log_temp" bmdat).map (fun a => a.apply (fun v => (10 : ℝ) ^ v))

/-- The registered field handler `log_press`. -/
def log_press (bmdat : BaseMusicData) : Except PyErr BigArray :=
  .ok (bmdat.eos.derive_arr bmdat.tables bmdat.big_array .LogPressure)

/-- The registered field handler `press`. -/
def press (recur : String → BaseMusicData → Except PyErr BigArray)
    (bmdat : BaseMusicData) : Except PyErr BigArray :=
  (recur "log_press" bmdat).map (fun a => a.apply (fun v => (10 : ℝ) ^ v))

/-- The registered field handler `log_pgas`. -/
def log_pgas (bmdat : BaseMusicData) : Except PyErr BigArray :=
  .ok (bmdat.eos.derive_arr bmdat.tables bmdat.big_array .LogPgas)

/-- The registered field handler `pgas`. -/
def pgas (recur : String → BaseMusicData → Except PyErr BigArray)
    (bmdat : BaseMusicData) : Except PyErr BigArray :=
  (recur "log_pgas" bmdat).map (fun a => a.apply (fun v => (10 : ℝ) ^ v))

/-- The registered field handler `entropy`: the log-entropy table lookup,
exponentiated. -/
def entropy (bmdat : BaseMusicData) : Except PyErr BigArray :=
  .ok ((bmdat.eos.derive_arr bmdat.tables bmdat.big_array .LogEntropy).apply
    (fun v => (10 : ℝ) ^ v))

/-- The registered field handler `adiab_grad`. -/
def adiab_grad (bmdat : BaseMusicData) : Except PyErr BigArray :=
  .ok (bmdat.eos.derive_arr bmdat.tables bmdat.big_array .DTempDPresScst)

/-- The final contents of `FieldGetter._handlers` after import of
derived_fields.py, in registration order; `recur` is the resolver the
handlers `temp`, `press` and `pgas` re-enter. -/
def fieldHandlers (recur : String → BaseMusicData → Except PyErr BigArray) :
    Handlers BaseMusicData BigArray :=
  [("vel_ampl", vel_ampl),
   ("vel_square", vel_square),
   ("ekin", ekin),
   ("vr_abs", vr_abs),
   ("vt_abs", vt_abs),
   ("vr_normalized", vr_normalized),
   ("vt_normalized", vt_normalized),
   ("log_temp", log_temp),
   ("temp", temp recur),
   ("log_press", log_press),
   ("press", press recur),
   ("log_pgas", log_pgas),
   ("pgas", pgas recur),
   ("entropy", entropy),
   ("adiab_grad", adiab_grad)]

/-- `FieldGetter.__call__` for a given variable name: dispatch to the
registered handler, falling back on `FieldGetter.default_getter`
(`bmdat.big_array.xs(var_name, "var")`) on a missed dict lookup.  The
first argument is recursion fuel standing for Python's call stack: fuel
zero is a RecursionError, and any depth the code actually reaches (at
most two nested resolutions) is covered by any larger fuel. -/
def FieldGetter.call : Nat → String → BaseMusicData → Except PyErr BigArray
  | 0, _, _ => .error .recursionError
  | fuel + 1, name, bmdat =>
      fetcherCall (fieldHandlers (FieldGetter.call fuel))
        (fun b => b.big_array.xs name "var") name bmdat

/-- The registered radial-profile handler `vrms`, which resolves the
radial profile of `vel_square` (`bmdat.rprof["vel_square"]`, here the
recursive profile resolver) and takes the square root. -/
def vrms (recur : String → BaseMusicData → Except PyErr BigArray)
    (bmdat : BaseMusicData) : Except PyErr BigArray :=
  (recur "vel_square" bmdat).map BigArray.sqrtArr

/-- The final contents of `ProfGetter._handlers`: only `vrms`. -/
def profHandlers (recur : String → BaseMusicData → Except PyErr BigArray) :
    Handlers BaseMusicData BigArray :=
  [("vrms", vrms recur)]

/-- `ProfGetter.default_getter`: resolve the field, then collapse the
colatitude axis `x2` by the arithmetic mean (Cartesian geometry) or the
spherical quadrature average (spherical geometry); when the field
carries a `time` axis the profile is returned slabbed in chunks of 10. -/
def profDefault (fieldCall : String → BaseMusicData → Except PyErr BigArray)
    (name : String) (bmdat : BaseMusicData) : Except PyErr BigArray :=
  (fieldCall name bmdat).map (fun field =>
    let prof :=
      if bmdat.cartesian then field.mean "x2"
      else field.collapse (sphQuadAverage bmdat.grid.grids1) "x2"
    if field.hasAxis "time" then prof.slabbed "time" 10 else prof)

/-- `ProfGetter.__call__`, with recursion fuel as in `FieldGetter.call`. -/
def ProfGetter.call : Nat → String → BaseMusicData → Except PyErr BigArray
  | 0, _, _ => .error .recursionError
  | fuel + 1, name, bmdat =>
      fetcherCall (profHandlers (ProfGetter.call fuel))
        (profDefault (FieldGetter.call fuel) name) name bmdat

/-- `TimeAveragedProfGetter._handlers` is never added to: no handler of
this kind is registered anywhere in the repository. -/
def timeAvgProfHandlers : Handlers BaseMusicData BigArray := []

/-- `TimeAveragedProfGetter.__call__`: with an empty registry, every
call runs the default: resolve the radial profile, then collapse `time`
by the arithmetic mean when the raw array carries a `time` axis. -/
def TimeAveragedProfGetter.call :
    Nat → String → BaseMusicData → Except PyErr BigArray
  | 0, _, _ => .error .recursionError
  | fuel + 1, name, bmdat =>
      fetcherCall timeAvgProfHandlers
        (fun b =>
          (ProfGetter.call fuel name b).map (fun field =>
            if b.big_array.hasAxis "time" then field.mean "time" else field))
        name bmdat

/-- `TimeSeriesGetter._handlers` is never added to: no handler of this
kind is registered anywhere in the repository. -/
def tseriesHandlers : Handlers BaseMusicData BigArray := []

/-- `TimeSeriesGetter.__call__`: with an empty registry, every call runs
the default: resolve the radial profile, then collapse the radial axis
`x1` by the arithmetic mean (Cartesian) or by the volume-weighted
average with weights `cell_width * radius**2` followed by a slabbed
presentation along `time` (spherical). -/
def TimeSeriesGetter.call : Nat → String → BaseMusicData → Except PyErr BigArray
  | 0, _, _ => .error .recursionError
  | fuel + 1, name, bmdat =>
      fetcherCall tseriesHandlers
        (fun b =>
          (ProfGetter.call fuel name b).map (fun prof =>
            if b.cartesian then prof.mean "x1"
            else
              (prof.collapse (fun w => npAverage w (tsWeights b.grid.grids0))
                "x1").slabbed "time" 10))
        name bmdat

end

/-- The run parameters `MusicData.params` reads from the Fortran
namelist: `params["physics"]["zz"]`, `params["physics"]["yy"]` and
`params["scalars"].get("nscalars", 0)` (`none` models an absent
`nscalars` key, defaulted to 0 by `.get`). -/
structure RunParams where
  zz : ℝ
  yy : ℝ
  nscalars : Option Int

/-- The generated `__init__` of the frozen dataclass `MesaCstMetalEos`:
both fields are required positional parameters without defaults, so a
call that does not supply `he_scalar` raises a TypeError. -/
def mkMesaCstMetalEos (metallicity : ℝ) (he_scalar : Option Int) :
    Except PyErr EoS :=
  match he_scalar with
  | none => .error .typeError
  | some h => .ok (.mesaCstMetal ⟨metallicity, h⟩)

/-- `MusicData.eos` (musicdata.py): read the metallicity `zz`; when
`nscalars > 0`, construct `MesaCstMetalEos(metallicity)` — the source
passes only the metallicity, leaving the required `he_scalar` argument
unsupplied — otherwise construct `MesaCstCompoEos(metallicity, yy)`. -/
def eosOf (p : RunParams) : Except PyErr EoS :=
  let metallicity := p.zz
  if p.nscalars.getD 0 > 0 then
    mkMesaCstMetalEos metallicity none
  else
    .ok (.mesaCstCompo ⟨metallicity, p.yy⟩)

/-- The big-endian digit list of the zero-padded decimal field
`f"{idump:08}"` embedded in a dump file name (faithful for indices below
`10^8`, the range the 8-wide format covers). -/
def padDigits : Nat → Nat → List Nat
  | 0, _ => []
  | w + 1, n => n / 10 ^ w :: padDigits w (n % 10 ^ w)

/-- `int(name[-14:-6])`: recover the index from the 8 digits preceding
the 6-character `.music` suffix. -/
def unpad (ds : List Nat) : Nat :=
  ds.foldl (fun acc d => 10 * acc + d) 0

/-- Lexicographic strict comparison of two digit lists: how Python's
`max()` compares the dump file paths, which share directory, prefix and
suffix and differ only in the 8-digit index field. -/
def lexLtB : List Nat → List Nat → Bool
  | [], [] => false
  | [], _ :: _ => true
  | _ :: _, [] => false
  | a :: as, b :: bs => if a < b then true else if b < a then false else lexLtB as bs

/-- Python `max()` over a sequence of keys: `none` on an empty sequence
(where the real `max` raises ValueError), otherwise the fold keeping the
largest element seen. -/
def maxByLex : List (List Nat) → Option (List Nat)
  | [] => none
  | x :: xs => some (xs.foldl (fun m y => if lexLtB m y then y else m) x)

/-- A run directory, reduced to the indices of the dump files present
that match the configured `dataoutput*.music` naming pattern
(`_outfile(i)` exists exactly when `i` is in the list). -/
structure MusicRunDir where
  dumps : List Nat
  deriving DecidableEq, Repr

/-- `MusicData._len`: take the maximum matching dump file (ValueError
when the directory scan finds none), parse the 8-digit index out of its
name, and add one. -/
def runLen (d : MusicRunDir) : Except PyErr Nat :=
  match maxByLex (d.dumps.map (padDigits 8)) with
  | none => .error .valueError
  | some last => .ok (unpad last + 1)

/-- A snapshot handle, reduced to its dump index (the `Snap` dataclass
also carries the owning run and the materialized dump, which the
indexing contract does not inspect). -/
structure Snap where
  idump : Int
  deriving DecidableEq, Repr

/-- `MusicData._normalize_idump`: negative indices wrap once from the
end. -/
def normalizeIdump (n : Nat) (i : Int) : Int :=
  if i < 0 then i + n else i

/-- Integer indexing branch of `MusicData.__getitem__`: normalize the
index, raise IndexError when it is out of `[0, len)`, raise IndexError
when the backing dump file does not exist, and otherwise return the
snapshot (`len(self)` computes `_len`, whose ValueError on an empty
directory propagates). -/
def getItemInt (d : MusicRunDir) (i : Int) : Except PyErr Snap := do
  let n ← runLen d
  let j := normalizeIdump n i
  if j < 0 ∨ (n : Int) ≤ j then
    .error .indexError
  else if d.dumps.contains j.toNat then
    .ok ⟨j⟩
  else
    .error .indexError

/-- A Python `slice(start, stop, step)` literal with its optional
components. -/
structure PySlice where
  start : Option Int
  stop : Option Int
  step : Option Int
  deriving DecidableEq, Repr

/-- `slice.indices(length)` (CPython semantics): default and clamp the
three components to the sequence length; a zero step is a ValueError. -/
def sliceIndices (s : PySlice) (length : Nat) : Except PyErr (Int × Int × Int) :=
  let step := s.step.getD 1
  if step = 0 then .error .valueError
  else
    let lower : Int := if step < 0 then -1 else 0
    let upper : Int := if step < 0 then (length : Int) - 1 else (length : Int)
    let start :=
      match s.start with
      | none => if step < 0 then upper else lower
      | some v => if v < 0 then max (v + (length : Int)) lower else min v upper
    let stop :=
      match s.stop with
      | none => if step < 0 then lower else upper
      | some v => if v < 0 then max (v + (length : Int)) lower else min v upper
    .ok (start, stop, step)

/-- Number of elements of `range(start, stop, step)` for a nonzero step. -/
def pyRangeLen (start stop step : Int) : Nat :=
  if 0 < step then (stop - start + step - 1).toNat / step.toNat
  else (start - stop + (-step) - 1).toNat / (-step).toNat

/-- The elements of Python `range(start, stop, step)`, in order. -/
def pyRange (start stop step : Int) : List Int :=
  (List.range (pyRangeLen start stop step)).map (fun (k : Nat) => start + step * (k : Int))

/-- `_SnapsView._exists`: probe `self._mdat[idump]`, converting an
IndexError into `False`; any other exception (for instance the
ValueError of `_len` on an empty directory) propagates. -/
def existsIdx (d : MusicRunDir) (i : Int) : Except PyErr Bool :=
  match getItemInt d i with
  | .ok _ => .ok true
  | .error .indexError => .ok false
  | .error e => .error e

/-- The generator `(self._mdat[i] for i in indices if self._exists(i))`:
keep the snapshots whose index probe succeeds, skipping the rest. -/
def snapsOfIndices (d : MusicRunDir) : List Int → Except PyErr (List Snap)
  | [] => .ok []
  | i :: is => do
      let b ← existsIdx d i
      if b then do
        let s ← getItemInt d i
        let rest ← snapsOfIndices d is
        .ok (s :: rest)
      else
        snapsOfIndices d is

/-- One item of the tuple a `_SnapsView` iterates over. -/
inductive SliceItem where
  | int (i : Int)
  | slc (s : PySlice)
  deriving DecidableEq, Repr

/-- One loop iteration of `_SnapsView.__iter__`: a slice item clamps its
bounds with `item.indices(len(self._mdat))` and contributes the existing
snapshots of the resulting index range; an integer item contributes its
snapshot when the probe succeeds (the same probe-then-yield shape as the
slice generator, on a one-element index list). -/
def itemSnaps (d : MusicRunDir) : SliceItem → Except PyErr (List Snap)
  | .slc s => do
      let n ← runLen d
      let idx ← sliceIndices s n
      snapsOfIndices d (pyRange idx.1 idx.2.1 idx.2.2)
  | .int i => snapsOfIndices d [i]

/-- `_SnapsView.__iter__`: the per-item snapshot lists, concatenated in
item order. -/
def viewList (d : MusicRunDir) : List SliceItem → Except PyErr (List Snap)
  | [] => .ok []
  | item :: rest => do
      let xs ← itemSnaps d item
      let ys ← viewList d rest
      .ok (xs ++ ys)

/-- The argument forms accepted by `MusicData.__getitem__`. -/
inductive GetItemArg where
  | int (i : Int)
  | slc (s : PySlice)
  | tup (items : List SliceItem)

/-- The result of `MusicData.__getitem__`: a materialized snapshot for an
integer, or a lazy `_SnapsView` (modelled by the item tuple it will
iterate over) for a slice or tuple. -/
inductive GetItemResult where
  | snap (s : Snap)
  | view (items : List SliceItem)
  deriving DecidableEq, Repr

/-- `MusicData.__getitem__`: a slice wraps into a one-item view, a tuple
wraps into a view over its items (no file is touched in either case),
and an integer materializes the snapshot or raises. -/
def MusicData.getItem (d : MusicRunDir) : GetItemArg → Except PyErr GetItemResult
  | .slc s => .ok (.view [.slc s])
  | .tup items => .ok (.view items)
  | .int i => (getItemInt d i).map .snap

noncomputable section

/-- Concrete MESA tables used by the witness data sources (the claims
under verification hold for every table, so the zero table suffices). -/
def zeroTables : MesaTables :=
  ⟨fun _ _ _ _ _ => 0, fun _ _ _ _ _ => 0⟩

/-- A trivial one-cell grid axis for the witness data sources. -/
def unitGrid1D : Grid1D :=
  ⟨1, fun _ => 1, fun _ => 1⟩

/-- A concrete snapshot-like data source: raw variables `density = 2`,
`vel_1 = 3`, `vel_2 = 4`, `e_int_spec = 1`, and a raw label `vel_ampl`
(value 99) that shadows nothing because the registered handler wins. -/
def sampleSnap : BaseMusicData :=
  { grid := ⟨unitGrid1D, unitGrid1D⟩
    big_array :=
      { axes := [("var", ["density", "vel_1", "vel_2", "e_int_spec", "vel_ampl"]),
                 ("x1", ["a"]), ("x2", ["b"])]
        val := fun f => ([2, 3, 4, 1, 99] : List ℝ).getD (f "var") 0
        slabs := [] }
    eos := .mesaCstCompo ⟨2, 3⟩
    cartesian := true
    tables := zeroTables }

/-- The colatitude grid of the spherical witness source: one cell
centered at `pi/2` of width 1, so its quadrature weight is `sin(pi/2)`. -/
def thetaGrid1 : Grid1D :=
  ⟨1, fun _ => Real.pi / 2, fun _ => 1⟩

/-- The radial grid of the witness sources: two cells centered at 1 of
width 1. -/
def radGrid2 : Grid1D :=
  ⟨2, fun _ => 1, fun _ => 1⟩

/-- A spherical data source whose raw `density` field is the constant 5
on a 2 (radial) by 1 (colatitude) grid. -/
def sphSnap : BaseMusicData :=
  { grid := ⟨radGrid2, thetaGrid1⟩
    big_array :=
      { axes := [("var", ["density"]), ("x1", ["r0", "r1"]), ("x2", ["t0"])]
        val := fun _ => 5
        slabs := [] }
    eos := .mesaCstCompo ⟨2, 3⟩
    cartesian := false
    tables := zeroTables }

/-- The field `sphSnap.field["density"]` resolves to: the raw array
sliced at `var = density` (axes `x1`, `x2` remain). -/
def sphField : BigArray :=
  { axes := [("x1", ["r0", "r1"]), ("x2", ["t0"])]
    val := fun f => sphSnap.big_array.val (updIdx f "var" 0)
    slabs := [] }

/-- The radial profile `sphSnap.rprof["density"]` resolves to: the field
collapsed over `x2` by the spherical quadrature average. -/
def sphProf : BigArray :=
  sphField.collapse (sphQuadAverage sphSnap.grid.grids1) "x2"

/-- The Cartesian twin of `sphSnap` (same raw data and grids, Cartesian
geometry flag). -/
def cartSnap : BaseMusicData :=
  { sphSnap with cartesian := true }

/-- The field `cartSnap.field["density"]`. -/
def cartField : BigArray :=
  { axes := [("x1", ["r0", "r1"]), ("x2", ["t0"])]
    val := fun f => cartSnap.big_array.val (updIdx f "var" 0)
    slabs := [] }

/-- The radial profile `cartSnap.rprof["density"]`: the field collapsed
over `x2` by the arithmetic mean. -/
def cartProf : BigArray :=
  cartField.mean "x2"

/-- A Cartesian run-like data source: its raw array carries a `time`
axis and a constant `density` variable. -/
def cartRun : BaseMusicData :=
  { grid := ⟨radGrid2, thetaGrid1⟩
    big_array :=
      { axes := [("var", ["density"]), ("time", ["0", "1"]),
                 ("x1", ["r0", "r1"]), ("x2", ["t0"])]
        val := fun _ => 7
        slabs := [] }
    eos := .mesaCstCompo ⟨2, 3⟩
    cartesian := true
    tables := zeroTables }

end

/-- A run directory holding the dump files numbered 0, 1, 2 and 5
(files 3 and 4 are missing; the highest-numbered file is 5, so the run
length is 6). -/
def runA : MusicRunDir :=
  ⟨[0, 1, 2, 5]⟩

/-! ## Helper lemmas -/

theorem labelIndex?_eq_none_of_not_mem {ls : List String} {lbl : String}
    (h : lbl ∉ ls) : labelIndex? ls lbl = none := by
  induction ls with
  | nil => rfl
  | cons a as ih =>
      simp only [List.mem_cons, not_or] at h
      have hne : ¬ (a = lbl) := fun e => h.1 e.symm
      rw [labelIndex?, if_neg hne, ih h.2]
      rfl

theorem getItemInt_eq {d : MusicRunDir} {n : Nat} (hn : runLen d = .ok n) (i : Int) :
    getItemInt d i =
      if normalizeIdump n i < 0 ∨ (n : Int) ≤ normalizeIdump n i then
        .error .indexError
      else if d.dumps.contains (normalizeIdump n i).toNat then
        .ok ⟨normalizeIdump n i⟩
      else
        .error .indexError := by
  unfold getItemInt
  rw [hn]
  rfl

/-! ## Claim C2 -/

/-- C2 (code bug): when the configuration gives `nscalars = 1` the
`MusicData.eos` computation calls `MesaCstMetalEos(metallicity)` without
the required `he_scalar` field of the frozen dataclass, raising a
TypeError instead of producing the constant-metallicity equation of
state; with `nscalars` absent or 0 it produces the constant-composition
variant, whose lookup is fed by density and specific internal energy
only; a correctly constructed constant-metallicity variant would feed
the lookup with density, specific internal energy and the
helium-fraction scalar, through the same `derive_arr` capability. -/
theorem eos_selection_nscalars :
    eosOf ⟨2, 3, some 1⟩ = .error .typeError
    ∧ eosOf ⟨2, 3, none⟩ = .ok (.mesaCstCompo ⟨2, 3⟩)
    ∧ eosOf ⟨2, 3, some 0⟩ = .ok (.mesaCstCompo ⟨2, 3⟩)
    ∧ (∀ (tables : MesaTables) (a : BigArray) (v : StateVar) (f : String → Nat),
        (EoS.derive_arr (.mesaCstMetal ⟨2, 1⟩) tables a v).val f
          = tables.cstMetal 2 (varVal a "scalar_1" f) (varVal a "density" f)
              (varVal a "e_int_spec" f) v)
    ∧ (∀ (tables : MesaTables) (a : BigArray) (v : StateVar) (f : String → Nat),
        (EoS.derive_arr (.mesaCstCompo ⟨2, 3⟩) tables a v).val f
          = tables.cstCompo 2 3 (varVal a "density" f) (varVal a "e_int_spec" f) v) :=
  ⟨rfl, rfl, rfl, fun _ _ _ _ => rfl, fun _ _ _ _ => rfl⟩

/-! ## Claim C4 -/

/-- C4: integer indexing on a Run of length `n` wraps an index in
`[-n, 0)` once by adding the length; a normalized index inside `[0, n)`
whose backing dump file exists yields that snapshot; a normalized index
outside `[0, n)`, or one whose backing file is missing, raises
IndexError (the Not-Found condition) instead of crashing or returning a
default. -/
theorem int_indexing_contract (d : MusicRunDir) (n : Nat) (i : Int)
    (hn : runLen d = .ok n) :
    ((-(n : Int) ≤ i ∧ i < 0) → getItemInt d i = getItemInt d (i + n))
    ∧ ((0 ≤ normalizeIdump n i ∧ normalizeIdump n i < (n : Int)
          ∧ d.dumps.contains (normalizeIdump n i).toNat)
        → getItemInt d i = .ok ⟨normalizeIdump n i⟩)
    ∧ ((normalizeIdump n i < 0 ∨ (n : Int) ≤ normalizeIdump n i)
        → getItemInt d i = .error .indexError)
    ∧ ((0 ≤ normalizeIdump n i ∧ normalizeIdump n i < (n : Int)
          ∧ ¬ d.dumps.contains (normalizeIdump n i).toNat)
        → getItemInt d i = .error .indexError) := by
  refine ⟨?_, ?_, ?_, ?_⟩
  · rintro ⟨hle, hlt⟩
    rw [getItemInt_eq hn, getItemInt_eq hn]
    have h1 : normalizeIdump n i = i + n := by simp [normalizeIdump, hlt]
    have h2 : normalizeIdump n (i + n) = i + n := by
      simp only [normalizeIdump]
      rw [if_neg (by omega)]
    rw [h1, h2]
  · rintro ⟨h0, h1, h2⟩
    rw [getItemInt_eq hn, if_neg (by omega), if_pos h2]
  · intro h
    rw [getItemInt_eq hn, if_pos h]
  · rintro ⟨h0, h1, h2⟩
    rw [getItemInt_eq hn, if_neg (by omega), if_neg h2]

/-- Witness for C4 on the concrete run `runA` (files 0, 1, 2, 5, length
6): `runA[-1]` equals `runA[5]` which is snapshot 5; `runA[12]` and the
missing-file index `runA[3]` raise IndexError. -/
theorem int_indexing_contract_witness :
    runLen runA = .ok 6
    ∧ getItemInt runA (-1) = getItemInt runA 5
    ∧ getItemInt runA 5 = .ok ⟨5⟩
    ∧ getItemInt runA 12 = .error .indexError
    ∧ getItemInt runA 3 = .error .indexError := by
  refine ⟨rfl, ?_, ?_, ?_, ?_⟩
  · exact (int_indexing_contract runA 6 (-1) rfl).1 ⟨by decide, by decide⟩
  · exact (int_indexing_contract runA 6 5 rfl).2.1 ⟨by decide, by decide, by decide⟩
  · exact (int_indexing_contract runA 6 12 rfl).2.2.1 (by decide)
  · exact (int_indexing_contract runA 6 3 rfl).2.2.2 ⟨by decide, by decide, by decide⟩

/-! ## Claim C6 -/

/-- C6: a field request for a name with no registered handler that is
also absent from the labels of the raw array's `var` axis fails with the
Not-Found condition (the KeyError of the label lookup in
`FieldGetter.default_getter`), propagated to the caller rather than
silently defaulted to zero or NaN. -/
theorem unknown_field_not_found (fuel : Nat) (name : String) (b : BaseMusicData)
    (hno : lookupHandler (fieldHandlers (FieldGetter.call fuel)) name = none)
    (habs : name ∉ b.big_array.axisLabels "var") :
    FieldGetter.call (fuel + 1) name b = .error .keyError := by
  show fetcherCall (fieldHandlers (FieldGetter.call fuel))
    (fun b => b.big_array.xs name "var") name b = _
  simp only [fetcherCall, hno, BigArray.xs, labelIndex?_eq_none_of_not_mem habs]

/-- Witness for C6: `vorticity` is not registered and not a raw label of
the sample snapshot, so its field resolution raises the Not-Found
condition. -/
theorem unknown_field_not_found_witness :
    lookupHandler (fieldHandlers (FieldGetter.call 0)) "vorticity" = none
    ∧ "vorticity" ∉ sampleSnap.big_array.axisLabels "var"
    ∧ FieldGetter.call 1 "vorticity" sampleSnap = .error .keyError :=
  ⟨rfl, by decide, unknown_field_not_found 0 "vorticity" sampleSnap rfl (by decide)⟩

/-! ## Claim C1 -/

theorem fetcherCall_of_lookup {D U : Type} (hs : Handlers D U)
    (dflt : D → Except PyErr U) (name : String) (obj : D)
    (h : D → Except PyErr U)
    (hfind : lookupHandler hs name = some h)
    (hkey : h obj ≠ .error .keyError) :
    fetcherCall hs dflt name obj = h obj := by
  simp only [fetcherCall, hfind]

theorem fieldCall_log_temp_ne_keyError (fuel : Nat) (b : BaseMusicData) :
    FieldGetter.call fuel "log_temp" b ≠ .error .keyError := by
  cases fuel with
  | zero => simp [FieldGetter.call]
  | succ n =>
      have h1 : FieldGetter.call (n + 1) "log_temp" b
          = .ok (b.eos.derive_arr b.tables b.big_array .LogTemperature) := rfl
      simp [h1]

theorem fieldCall_log_press_ne_keyError (fuel : Nat) (b : BaseMusicData) :
    FieldGetter.call fuel "log_press" b ≠ .error .keyError := by
  cases fuel with
  | zero => simp [FieldGetter.call]
  | succ n =>
      have h1 : FieldGetter.call (n + 1) "log_press" b
          = .ok (b.eos.derive_arr b.tables b.big_array .LogPressure) := rfl
      simp [h1]

theorem fieldCall_log_pgas_ne_keyError (fuel : Nat) (b : BaseMusicData) :
    FieldGetter.call fuel "log_pgas" b ≠ .error .keyError := by
  cases fuel with
  | zero => simp [FieldGetter.call]
  | succ n =>
      have h1 : FieldGetter.call (n + 1) "log_pgas" b
          = .ok (b.eos.derive_arr b.tables b.big_array .LogPgas) := rfl
      simp [h1]

theorem fieldCall_vel_square_ne_keyError (fuel : Nat) (b : BaseMusicData) :
    FieldGetter.call fuel "vel_square" b ≠ .error .keyError := by
  cases fuel with
  | zero => simp [FieldGetter.call]
  | succ n =>
      have h1 : FieldGetter.call (n + 1) "vel_square" b
          = vel_square b := rfl
      simp [h1, vel_square]

theorem fieldHandlers_no_keyError (fuel : Nat)
    (p : String × (BaseMusicData → Except PyErr BigArray))
    (hp : p ∈ fieldHandlers (FieldGetter.call fuel)) (b : BaseMusicData) :
    p.2 b ≠ .error .keyError := by
  simp only [fieldHandlers, List.mem_cons, List.not_mem_nil, or_false] at hp
  rcases hp with rfl | rfl | rfl | rfl | rfl | rfl | rfl | rfl | rfl | rfl | rfl | rfl
    | rfl | rfl | rfl
  · simp [vel_ampl]
  · simp [vel_square]
  · simp [ekin]
  · simp [vr_abs]
  · simp [vt_abs]
  · simp [vr_normalized]
  · simp [vt_normalized]
  · simp [log_temp]
  · simp only [temp]
    cases hr : FieldGetter.call fuel "log_temp" b with
    | ok a => simp [Except.map]
    | error e =>
        have h2 := fieldCall_log_temp_ne_keyError fuel b
        rw [hr] at h2
        simpa [Except.map] using h2
  · simp [log_press]
  · simp only [press]
    cases hr : FieldGetter.call fuel "log_press" b with
    | ok a => simp [Except.map]
    | error e =>
        have h2 := fieldCall_log_press_ne_keyError fuel b
        rw [hr] at h2
        simpa [Except.map] using h2
  · simp [log_pgas]
  · simp only [pgas]
    cases hr : FieldGetter.call fuel "log_pgas" b with
    | ok a => simp [Except.map]
    | error e =>
        have h2 := fieldCall_log_pgas_ne_keyError fuel b
        rw [hr] at h2
        simpa [Except.map] using h2
  · simp [entropy]
  · simp [adiab_grad]

theorem profCall_vel_square_ne_keyError (fuel : Nat) (b : BaseMusicData) :
    ProfGetter.call fuel "vel_square" b ≠ .error .keyError := by
  cases fuel with
  | zero => simp [ProfGetter.call]
  | succ n =>
      have h1 : ProfGetter.call (n + 1) "vel_square" b
          = profDefault (FieldGetter.call n) "vel_square" b := rfl
      rw [h1]
      unfold profDefault
      cases hr : FieldGetter.call n "vel_square" b with
      | ok a => simp [hr, Except.map]
      | error e =>
          have h2 := fieldCall_vel_square_ne_keyError n b
          rw [hr] at h2
          simp only [hr, Except.map]
          simpa using h2

theorem profHandlers_no_keyError (fuel : Nat)
    (p : String × (BaseMusicData → Except PyErr BigArray))
    (hp : p ∈ profHandlers (ProfGetter.call fuel)) (b : BaseMusicData) :
    p.2 b ≠ .error .keyError := by
  simp only [profHandlers, List.mem_cons, List.not_mem_nil, or_false] at hp
  subst hp
  simp only [vrms]
  cases hr : ProfGetter.call fuel "vel_square" b with
  | ok a => simp [Except.map]
  | error e =>
      have h2 := profCall_vel_square_ne_keyError fuel b
      rw [hr] at h2
      simpa [Except.map] using h2

/-- C1: when a variable name has a registered handler in the field
registry (respectively the radial-profile registry), resolving that name
invokes the registered handler and returns its result verbatim, never
running the kind's structural default — irrespective of the data source,
so in particular even when the name is also a label on the raw array's
`var` axis. -/
theorem registered_handler_wins (fuel : Nat) (name : String) (b : BaseMusicData)
    (h hp : BaseMusicData → Except PyErr BigArray) :
    (lookupHandler (fieldHandlers (FieldGetter.call fuel)) name = some h →
        FieldGetter.call (fuel + 1) name b = h b)
    ∧ (lookupHandler (profHandlers (ProfGetter.call fuel)) name = some hp →
        ProfGetter.call (fuel + 1) name b = hp b) := by
  constructor
  · intro hf
    obtain ⟨pr, hfind, hsnd⟩ := Option.map_eq_some'.1 hf
    have hmem := List.mem_of_find?_eq_some hfind
    have hkey : h b ≠ .error .keyError := by
      rw [← hsnd]
      exact fieldHandlers_no_keyError fuel pr hmem b
    exact fetcherCall_of_lookup _ _ name b h hf hkey
  · intro hf
    obtain ⟨pr, hfind, hsnd⟩ := Option.map_eq_some'.1 hf
    have hmem := List.mem_of_find?_eq_some hfind
    have hkey : hp b ≠ .error .keyError := by
      rw [← hsnd]
      exact profHandlers_no_keyError fuel pr hmem b
    exact fetcherCall_of_lookup _ _ name b hp hf hkey

/-- Witness for C1: `vel_ampl` has a registered field handler and is
also a raw `var` label of the sample snapshot, yet resolution returns
the handler's result; `vrms` has a registered radial-profile handler and
resolution returns its result. -/
theorem registered_handler_wins_witness :
    lookupHandler (fieldHandlers (FieldGetter.call 1)) "vel_ampl" = some vel_ampl
    ∧ "vel_ampl" ∈ sampleSnap.big_array.axisLabels "var"
    ∧ FieldGetter.call 2 "vel_ampl" sampleSnap = vel_ampl sampleSnap
    ∧ lookupHandler (profHandlers (ProfGetter.call 1)) "vrms"
        = some (vrms (ProfGetter.call 1))
    ∧ ProfGetter.call 2 "vrms" sampleSnap = vrms (ProfGetter.call 1) sampleSnap := by
  refine ⟨rfl, by decide, ?_, rfl, ?_⟩
  · exact (registered_handler_wins 1 "vel_ampl" sampleSnap vel_ampl vel_ampl).1 rfl
  · exact (registered_handler_wins 1 "vrms" sampleSnap vel_ampl
      (vrms (ProfGetter.call 1))).2 rfl

/-! ## Claim C10 -/

/-- C10: for every data source, the registered `entropy` field handler
returns 10 raised to the equation-of-state's log-entropy lookup, while
`log_temp`, `log_press`, `log_pgas` (and `adiab_grad`) return the lookup
value unexponentiated; the exponentiated `temp`, `press` and `pgas`
fields each have a registered `log_` counterpart, whereas no
`log_entropy` handler exists — entropy is the only
equation-of-state-routed field that is exponentiated without a separate
`log_` name. -/
theorem entropy_only_exponentiated (fuel : Nat) (b : BaseMusicData)
    (f : String → Nat) :
    (FieldGetter.call (fuel + 1) "entropy" b).map (fun a => a.val f)
      = .ok ((10 : ℝ) ^ ((b.eos.derive_arr b.tables b.big_array .LogEntropy).val f))
    ∧ (FieldGetter.call (fuel + 1) "log_temp" b).map (fun a => a.val f)
      = .ok ((b.eos.derive_arr b.tables b.big_array .LogTemperature).val f)
    ∧ (FieldGetter.call (fuel + 1) "log_press" b).map (fun a => a.val f)
      = .ok ((b.eos.derive_arr b.tables b.big_array .LogPressure).val f)
    ∧ (FieldGetter.call (fuel + 1) "log_pgas" b).map (fun a => a.val f)
      = .ok ((b.eos.derive_arr b.tables b.big_array .LogPgas).val f)
    ∧ (FieldGetter.call (fuel + 1) "adiab_grad" b).map (fun a => a.val f)
      = .ok ((b.eos.derive_arr b.tables b.big_array .DTempDPresScst).val f)
    ∧ lookupHandler (fieldHandlers (FieldGetter.call fuel)) "log_entropy" = none
    ∧ lookupHandler (fieldHandlers (FieldGetter.call fuel)) "log_temp" = some log_temp
    ∧ lookupHandler (fieldHandlers (FieldGetter.call fuel)) "log_press" = some log_press
    ∧ lookupHandler (fieldHandlers (FieldGetter.call fuel)) "log_pgas" = some log_pgas
    ∧ (FieldGetter.call (fuel + 2) "temp" b).map (fun a => a.val f)
      = .ok ((10 : ℝ) ^ ((b.eos.derive_arr b.tables b.big_array .LogTemperature).val f))
    ∧ (FieldGetter.call (fuel + 2) "press" b).map (fun a => a.val f)
      = .ok ((10 : ℝ) ^ ((b.eos.derive_arr b.tables b.big_array .LogPressure).val f))
    ∧ (FieldGetter.call (fuel + 2) "pgas" b).map (fun a => a.val f)
      = .ok ((10 : ℝ) ^ ((b.eos.derive_arr b.tables b.big_array .LogPgas).val f)) :=
  ⟨rfl, rfl, rfl, rfl, rfl, rfl, rfl, rfl, rfl, rfl, rfl, rfl⟩

/-! ## Claim C8 -/

/-- C8: on a data source whose raw array carries `vel_1` and `vel_2`,
the elementwise square of the resolved `vel_ampl` field equals the
resolved `vel_square` field, and both equal `vel_1` squared plus `vel_2`
squared (since `vel_ampl` is the square root of that sum by
construction). -/
theorem vel_ampl_sq_eq_vel_square (fuel : Nat) (b : BaseMusicData)
    (f : String → Nat)
    (h1 : "vel_1" ∈ b.big_array.axisLabels "var")
    (h2 : "vel_2" ∈ b.big_array.axisLabels "var") :
    (FieldGetter.call (fuel + 1) "vel_ampl" b).map (fun a => (a.val f) ^ 2)
      = (FieldGetter.call (fuel + 1) "vel_square" b).map (fun a => a.val f)
    ∧ (FieldGetter.call (fuel + 1) "vel_square" b).map (fun a => a.val f)
      = .ok ((varVal b.big_array "vel_1" f) ^ 2
          + (varVal b.big_array "vel_2" f) ^ 2) := by
  refine ⟨?_, rfl⟩
  show Except.ok ((Real.sqrt ((varVal b.big_array "vel_1" f) ^ 2
      + (varVal b.big_array "vel_2" f) ^ 2)) ^ 2)
    = Except.ok ((varVal b.big_array "vel_1" f) ^ 2
        + (varVal b.big_array "vel_2" f) ^ 2)
  exact congrArg Except.ok (Real.sq_sqrt (by positivity))

/-- Witness for C8 on the sample snapshot (vel_1 = 3, vel_2 = 4). -/
theorem vel_ampl_sq_eq_vel_square_witness :
    "vel_1" ∈ sampleSnap.big_array.axisLabels "var"
    ∧ "vel_2" ∈ sampleSnap.big_array.axisLabels "var"
    ∧ (FieldGetter.call 1 "vel_ampl" sampleSnap).map
        (fun a => (a.val (fun _ => 0)) ^ 2)
      = (FieldGetter.call 1 "vel_square" sampleSnap).map
        (fun a => a.val (fun _ => 0))
    ∧ (FieldGetter.call 1 "vel_square" sampleSnap).map
        (fun a => a.val (fun _ => 0))
      = .ok ((varVal sampleSnap.big_array "vel_1" (fun _ => 0)) ^ 2
          + (varVal sampleSnap.big_array "vel_2" (fun _ => 0)) ^ 2) := by
  refine ⟨by decide, by decide, ?_, ?_⟩
  · exact (vel_ampl_sq_eq_vel_square 0 sampleSnap (fun _ => 0)
      (by decide) (by decide)).1
  · exact (vel_ampl_sq_eq_vel_square 0 sampleSnap (fun _ => 0)
      (by decide) (by decide)).2

/-! ## Reduction-algebra lemmas -/

theorem slabbed_val (a : BigArray) (ax : String) (n : Nat) :
    (a.slabbed ax n).val = a.val := rfl

theorem slabbed_axes (a : BigArray) (ax : String) (n : Nat) :
    (a.slabbed ax n).axes = a.axes := rfl

theorem axisVals_const {a : BigArray} {ax : String} {c : ℝ}
    (h : ∀ g, a.val g = c) (f : String → Nat) :
    a.axisVals ax f = List.replicate (a.axisSize ax) c := by
  unfold BigArray.axisVals
  rw [show (fun i => a.val (updIdx f ax i)) = (fun _ : Nat => c) from
    funext (fun i => h _)]
  rw [List.map_const', List.length_range]

theorem zip_replicate_mul : ∀ (ws : List ℝ) (c : ℝ),
    ((List.replicate ws.length c).zip ws).map (fun p => p.1 * p.2)
      = ws.map (fun w => c * w)
  | [], _ => rfl
  | w :: ws, c => by
      simp only [List.length_cons, List.replicate_succ, List.zip_cons_cons,
        List.map_cons]
      rw [zip_replicate_mul ws c]

theorem sum_map_mul_const (c : ℝ) : ∀ ws : List ℝ,
    (ws.map (fun w => c * w)).sum = c * ws.sum
  | [] => by simp
  | w :: ws => by
      simp only [List.map_cons, List.sum_cons, sum_map_mul_const c ws]
      ring

theorem npAverage_replicate {ws : List ℝ} {c : ℝ} (h : ws.sum ≠ 0) :
    npAverage (List.replicate ws.length c) ws = c := by
  unfold npAverage
  rw [zip_replicate_mul, sum_map_mul_const]
  exact mul_div_cancel_right₀ c h

theorem mean_val_const {a : BigArray} {ax : String} {c : ℝ}
    (h : ∀ g, a.val g = c) (hp : 0 < a.axisSize ax) (f : String → Nat) :
    (a.mean ax).val f = c := by
  show (a.axisVals ax f).sum / (a.axisSize ax : ℝ) = c
  rw [axisVals_const h, List.sum_replicate, nsmul_eq_mul]
  exact mul_div_cancel_left₀ c (Nat.cast_ne_zero.2 (by omega))

theorem collapse_avg_const {a : BigArray} {ax : String} {c : ℝ} {ws : List ℝ}
    (h : ∀ g, a.val g = c) (hlen : ws.length = a.axisSize ax)
    (hs : ws.sum ≠ 0) (f : String → Nat) :
    (a.collapse (fun xs => npAverage xs ws) ax).val f = c := by
  show npAverage (a.axisVals ax f) ws = c
  rw [axisVals_const h, ← hlen]
  exact npAverage_replicate hs

theorem quadWeights_length (g : Grid1D) : (quadWeights g).length = g.ncells := by
  simp [quadWeights]

theorem tsWeights_length (g : Grid1D) : (tsWeights g).length = g.ncells := by
  simp [tsWeights]

theorem quadWeights_sum_pos {g : Grid1D} (hn : 0 < g.ncells)
    (hw : ∀ i < g.ncells, 0 < g.cell_centers i ∧ g.cell_centers i < Real.pi
        ∧ 0 < g.cell_widths i) :
    0 < (quadWeights g).sum := by
  apply List.sum_pos
  · intro x hx
    simp only [quadWeights, List.mem_map, List.mem_range] at hx
    obtain ⟨i, hi, rfl⟩ := hx
    obtain ⟨h1, h2, h3⟩ := hw i hi
    exact mul_pos (Real.sin_pos_of_pos_of_lt_pi h1 h2) h3
  · simp only [quadWeights, ne_eq, List.map_eq_nil_iff, List.range_eq_nil]
    omega

theorem tsWeights_sum_pos {g : Grid1D} (hn : 0 < g.ncells)
    (hw : ∀ i < g.ncells, 0 < g.cell_widths i ∧ g.cell_centers i ≠ 0) :
    0 < (tsWeights g).sum := by
  apply List.sum_pos
  · intro x hx
    simp only [tsWeights, List.mem_map, List.mem_range] at hx
    obtain ⟨i, hi, rfl⟩ := hx
    obtain ⟨h1, h2⟩ := hw i hi
    have h3 : 0 < (g.cell_centers i) ^ 2 := by positivity
    exact mul_pos h1 h3
  · simp only [tsWeights, ne_eq, List.map_eq_nil_iff, List.range_eq_nil]
    omega

/-! ## Claim C7 -/

/-- C7: for a name with no registered radial-profile handler, the
radial-profile default resolves the field and collapses the colatitude
axis `x2` — by the angular quadrature average when the geometry is
spherical, by the arithmetic mean when Cartesian — removing that axis;
when the resolved field is one constant everywhere, the resulting
profile is that constant in either geometry. -/
theorem rprof_default_constant (fuel : Nat) (name : String) (b : BaseMusicData)
    (arr : BigArray) (c : ℝ)
    (hno : lookupHandler (profHandlers (ProfGetter.call fuel)) name = none)
    (hfield : FieldGetter.call fuel name b = .ok arr)
    (hconst : ∀ g, arr.val g = c)
    (hsize : arr.axisSize "x2" = b.grid.grids1.ncells)
    (hpos : 0 < arr.axisSize "x2")
    (hsph : b.cartesian = false → ∀ i < b.grid.grids1.ncells,
        0 < b.grid.grids1.cell_centers i ∧ b.grid.grids1.cell_centers i < Real.pi
          ∧ 0 < b.grid.grids1.cell_widths i) :
    (∀ f, (ProfGetter.call (fuel + 1) name b).map (fun r => r.val f) = .ok c)
    ∧ (ProfGetter.call (fuel + 1) name b).map (fun r => r.axes)
        = .ok (dropAxis arr.axes "x2") := by
  have hdef : ProfGetter.call (fuel + 1) name b
      = .ok (if arr.hasAxis "time"
          then (if b.cartesian then arr.mean "x2"
                else arr.collapse (sphQuadAverage b.grid.grids1) "x2").slabbed
            "time" 10
          else (if b.cartesian then arr.mean "x2"
                else arr.collapse (sphQuadAverage b.grid.grids1) "x2")) := by
    have hcall : ProfGetter.call (fuel + 1) name b
        = profDefault (FieldGetter.call fuel) name b := by
      show fetcherCall (profHandlers (ProfGetter.call fuel))
        (profDefault (FieldGetter.call fuel) name) name b = _
      simp only [fetcherCall, hno]
    rw [hcall]
    unfold profDefault
    rw [hfield]
    rfl
  have hprofval : ∀ f, (if b.cartesian then arr.mean "x2"
      else arr.collapse (sphQuadAverage b.grid.grids1) "x2").val f = c := by
    intro f
    by_cases hc : b.cartesian = true
    · rw [if_pos hc]
      exact mean_val_const hconst hpos f
    · have hc' : b.cartesian = false := by
        cases hb : b.cartesian
        · rfl
        · exact absurd hb hc
      rw [if_neg (by rw [hc']; exact Bool.false_ne_true)]
      have hn1 : 0 < b.grid.grids1.ncells := hsize ▸ hpos
      have hsum : (quadWeights b.grid.grids1).sum ≠ 0 :=
        (quadWeights_sum_pos hn1 (hsph hc')).ne'
      exact collapse_avg_const hconst
        ((quadWeights_length b.grid.grids1).trans hsize.symm) hsum f
  have hprofaxes : (if b.cartesian then arr.mean "x2"
      else arr.collapse (sphQuadAverage b.grid.grids1) "x2").axes
      = dropAxis arr.axes "x2" := by
    by_cases hc : b.cartesian = true
    · rw [if_pos hc]; rfl
    · rw [if_neg hc]; rfl
  constructor
  · intro f
    rw [hdef]
    by_cases ht : arr.hasAxis "time" = true
    · rw [if_pos ht]
      show Except.ok (((if b.cartesian then arr.mean "x2"
          else arr.collapse (sphQuadAverage b.grid.grids1) "x2").slabbed
            "time" 10).val f) = Except.ok c
      rw [slabbed_val, hprofval]
    · rw [if_neg ht]
      show Except.ok ((if b.cartesian then arr.mean "x2"
          else arr.collapse (sphQuadAverage b.grid.grids1) "x2").val f)
        = Except.ok c
      rw [hprofval]
  · rw [hdef]
    by_cases ht : arr.hasAxis "time" = true
    · rw [if_pos ht]
      show Except.ok (((if b.cartesian then arr.mean "x2"
          else arr.collapse (sphQuadAverage b.grid.grids1) "x2").slabbed
            "time" 10).axes) = _
      rw [slabbed_axes, hprofaxes]
    · rw [if_neg ht]
      show Except.ok ((if b.cartesian then arr.mean "x2"
          else arr.collapse (sphQuadAverage b.grid.grids1) "x2").axes) = _
      rw [hprofaxes]

/-- Witness for C7: the constant field `density = 5` on the spherical
source yields the constant radial profile 5 (quadrature average), and on
its Cartesian twin the constant radial profile 5 (arithmetic mean); the
colatitude axis is removed in both cases. -/
theorem rprof_default_constant_witness :
    (ProfGetter.call 2 "density" sphSnap).map (fun r => r.val (fun _ => 0))
      = .ok 5
    ∧ (ProfGetter.call 2 "density" sphSnap).map (fun r => r.axes)
        = .ok (dropAxis sphField.axes "x2")
    ∧ (ProfGetter.call 2 "density" cartSnap).map (fun r => r.val (fun _ => 0))
        = .ok 5
    ∧ (ProfGetter.call 2 "density" cartSnap).map (fun r => r.axes)
        = .ok (dropAxis cartField.axes "x2") := by
  have hs := rprof_default_constant 1 "density" sphSnap sphField 5 rfl rfl
    (fun g => rfl) rfl (by decide)
    (fun _ i hi =>
      ⟨by show (0 : ℝ) < Real.pi / 2; positivity,
       by show Real.pi / 2 < Real.pi; exact half_lt_self Real.pi_pos,
       by show (0 : ℝ) < 1; norm_num⟩)
  have hc := rprof_default_constant 1 "density" cartSnap cartField 5 rfl rfl
    (fun g => rfl) rfl (by decide) (fun h => nomatch h)
  exact ⟨hs.1 (fun _ => 0), hs.2, hc.1 (fun _ => 0), hc.2⟩

/-! ## Claim C3 -/

theorem sphProf_val_const (g : String → Nat) : sphProf.val g = 5 := by
  show npAverage (sphField.axisVals "x2" g) (quadWeights sphSnap.grid.grids1) = 5
  have h1 : sphField.axisVals "x2" g = [5] := rfl
  have h2 : quadWeights sphSnap.grid.grids1 = [Real.sin (Real.pi / 2) * 1] := rfl
  rw [h1, h2, Real.sin_pi_div_two]
  simp [npAverage]

/-- C3 (amended): for a name with no registered time-series handler, the
time-series default resolves the radial profile and collapses the radial
axis `x1` — by the volume-weighted average with weights
`cell_width * radius^2` when the geometry is spherical (the result then
presented in chunked, slabbed form along `time`), by the arithmetic mean
when Cartesian (the mean returned without a slabbed wrapper) — leaving
an array without the radial axis; for a radial profile constant in
radius the result is that constant, for every grid with positive cell
widths and nonzero radii (independent of grid spacing). -/
theorem tseries_default_collapse (fuel : Nat) (name : String) (b : BaseMusicData)
    (prof : BigArray) (c : ℝ)
    (hno : lookupHandler tseriesHandlers name = none)
    (hprof : ProfGetter.call fuel name b = .ok prof)
    (hconst : ∀ g, prof.val g = c)
    (hsize : prof.axisSize "x1" = b.grid.grids0.ncells)
    (hpos : 0 < prof.axisSize "x1")
    (hsph : b.cartesian = false → ∀ i < b.grid.grids0.ncells,
        0 < b.grid.grids0.cell_widths i ∧ b.grid.grids0.cell_centers i ≠ 0) :
    (b.cartesian = true →
        TimeSeriesGetter.call (fuel + 1) name b = .ok (prof.mean "x1"))
    ∧ (b.cartesian = false →
        TimeSeriesGetter.call (fuel + 1) name b
          = .ok ((prof.collapse
              (fun w => npAverage w (tsWeights b.grid.grids0)) "x1").slabbed
              "time" 10))
    ∧ (∀ f, (TimeSeriesGetter.call (fuel + 1) name b).map (fun r => r.val f)
        = .ok c)
    ∧ (TimeSeriesGetter.call (fuel + 1) name b).map (fun r => r.axes)
        = .ok (dropAxis prof.axes "x1")
    ∧ (b.cartesian = false →
        (TimeSeriesGetter.call (fuel + 1) name b).map (fun r => r.slabs)
          = .ok [("time", 10)]) := by
  have hdef : TimeSeriesGetter.call (fuel + 1) name b
      = .ok (if b.cartesian then prof.mean "x1"
             else (prof.collapse
                 (fun w => npAverage w (tsWeights b.grid.grids0)) "x1").slabbed
               "time" 10) := by
    show (ProfGetter.call fuel name b).map _ = _
    rw [hprof]
    rfl
  refine ⟨?_, ?_, ?_, ?_, ?_⟩
  · intro hc
    rw [hdef, if_pos hc]
  · intro hc
    rw [hdef, if_neg (by rw [hc]; exact Bool.false_ne_true)]
  · intro f
    rw [hdef]
    by_cases hc : b.cartesian = true
    · rw [if_pos hc]
      show Except.ok ((prof.mean "x1").val f) = Except.ok c
      rw [mean_val_const hconst hpos f]
    · have hc' : b.cartesian = false := by
        cases hb : b.cartesian
        · rfl
        · exact absurd hb hc
      rw [if_neg hc]
      show Except.ok (((prof.collapse
          (fun w => npAverage w (tsWeights b.grid.grids0)) "x1").slabbed
            "time" 10).val f) = Except.ok c
      rw [slabbed_val]
      have hn0 : 0 < b.grid.grids0.ncells := hsize ▸ hpos
      have hsum : (tsWeights b.grid.grids0).sum ≠ 0 :=
        (tsWeights_sum_pos hn0 (hsph hc')).ne'
      rw [collapse_avg_const hconst
        ((tsWeights_length b.grid.grids0).trans hsize.symm) hsum f]
  · rw [hdef]
    by_cases hc : b.cartesian = true
    · rw [if_pos hc]; rfl
    · rw [if_neg hc]
      show Except.ok (((prof.collapse
          (fun w => npAverage w (tsWeights b.grid.grids0)) "x1").slabbed
            "time" 10).axes) = _
      rw [slabbed_axes]
      rfl
  · intro hc
    rw [hdef, if_neg (by rw [hc]; exact Bool.false_ne_true)]
    rfl

/-- Counterexample to C3 as stated: on a Cartesian run-level data source
the time-series default returns the plain arithmetic mean along `x1` —
an array that is indexed only by time but carries no slabbed (chunked)
wrapper — so the result is not presented in chunked form. -/
theorem tseries_cartesian_unslabbed :
    cartRun.cartesian = true
    ∧ (TimeSeriesGetter.call 3 "density" cartRun).map (fun r => r.slabs)
        = .ok []
    ∧ (TimeSeriesGetter.call 3 "density" cartRun).map (fun r => r.axes)
        = .ok [("time", ["0", "1"])] :=
  ⟨rfl, rfl, rfl⟩

/-- Witness for C3 (amended) on the spherical source: the constant
radial profile 5 collapses to the constant time series 5, with the
volume-weighted collapse and the slabbed presentation. -/
theorem tseries_default_collapse_witness :
    TimeSeriesGetter.call 3 "density" sphSnap
      = .ok ((sphProf.collapse
          (fun w => npAverage w (tsWeights sphSnap.grid.grids0)) "x1").slabbed
          "time" 10)
    ∧ (TimeSeriesGetter.call 3 "density" sphSnap).map
        (fun r => r.val (fun _ => 0)) = .ok 5
    ∧ (TimeSeriesGetter.call 3 "density" sphSnap).map (fun r => r.axes)
        = .ok (dropAxis sphProf.axes "x1")
    ∧ (TimeSeriesGetter.call 3 "density" sphSnap).map (fun r => r.slabs)
        = .ok [("time", 10)] := by
  have h := tseries_default_collapse 2 "density" sphSnap sphProf 5 rfl rfl
    sphProf_val_const rfl (by decide)
    (fun _ i hi =>
      ⟨by show (0 : ℝ) < 1; norm_num, by show (1 : ℝ) ≠ 0; norm_num⟩)
  exact ⟨h.2.1 rfl, h.2.2.1 (fun _ => 0), h.2.2.2.1, h.2.2.2.2 rfl⟩

/-! ## Claim C5 -/

theorem except_bind_ok {α β : Type} (a : α) (f : α → Except PyErr β) :
    (Except.ok a >>= f) = f a := rfl

theorem except_bind_error {α β : Type} (e : PyErr) (f : α → Except PyErr β) :
    ((Except.error e : Except PyErr α) >>= f) = .error e := rfl

theorem getItemInt_error_eq {d : MusicRunDir} {n : Nat} (hn : runLen d = .ok n)
    {i : Int} {e : PyErr} (h : getItemInt d i = .error e) : e = .indexError := by
  rw [getItemInt_eq hn] at h
  split_ifs at h <;>
    first
      | (injection h with h; exact h.symm)
      | exact Except.noConfusion h

theorem snapsOfIndices_eq {d : MusicRunDir} {n : Nat} (hn : runLen d = .ok n) :
    ∀ is : List Int, snapsOfIndices d is
      = .ok (is.filterMap (fun i => (getItemInt d i).toOption))
  | [] => rfl
  | i :: is => by
      rw [List.filterMap_cons]
      cases hg : getItemInt d i with
      | ok s =>
          have hex : existsIdx d i = .ok true := by rw [existsIdx, hg]
          simp only [snapsOfIndices, hex, except_bind_ok, if_true, hg,
            snapsOfIndices_eq hn is, Except.toOption]
      | error e =>
          have he : e = .indexError := getItemInt_error_eq hn hg
          subst he
          have hex : existsIdx d i = .ok false := by rw [existsIdx, hg]
          simp only [snapsOfIndices, hex, except_bind_ok, Bool.false_eq_true,
            if_false, hg, snapsOfIndices_eq hn is, Except.toOption]

theorem getItemInt_inrange {d : MusicRunDir} {n : Nat} (hn : runLen d = .ok n)
    {i : Int} (h0 : 0 ≤ i) (h1 : i < (n : Int)) :
    (getItemInt d i).toOption
      = if d.dumps.contains i.toNat then some ⟨i⟩ else none := by
  rw [getItemInt_eq hn]
  have hni : normalizeIdump n i = i := by
    unfold normalizeIdump
    rw [if_neg (by omega)]
  rw [hni, if_neg (by omega)]
  by_cases hc : d.dumps.contains i.toNat
  · rw [if_pos hc, if_pos hc]
    rfl
  · rw [if_neg hc, if_neg hc]
    rfl

theorem pyRange_mem_pos {start stop step : Int} (hstep : 0 < step) {i : Int}
    (hi : i ∈ pyRange start stop step) : start ≤ i ∧ i < stop := by
  simp only [pyRange, List.mem_map, List.mem_range] at hi
  obtain ⟨k, hk, rfl⟩ := hi
  have hk0 : (0 : Int) ≤ step * k := mul_nonneg hstep.le (Int.natCast_nonneg k)
  refine ⟨by omega, ?_⟩
  unfold pyRangeLen at hk
  rw [if_pos hstep] at hk
  have hS : 0 < step.toNat := by omega
  have h2 : (k + 1) * step.toNat ≤ (stop - start + step - 1).toNat :=
    (Nat.le_div_iff_mul_le hS).1 (Nat.succ_le_of_lt hk)
  by_cases hD : stop - start + step - 1 < 0
  · have hz : (stop - start + step - 1).toNat = 0 := by omega
    rw [hz, Nat.zero_div] at hk
    exact absurd hk (Nat.not_lt_zero k)
  · push_neg at hD
    have h3 : ((k + 1) * step.toNat : Int) ≤ ((stop - start + step - 1).toNat : Int) := by
      exact_mod_cast h2
    rw [Int.toNat_of_nonneg hD] at h3
    have h4 : ((k + 1) * step.toNat : Int) = ((k : Int) + 1) * step := by
      push_cast [Int.toNat_of_nonneg hstep.le]
      ring
    nlinarith [h3, h4]

theorem pyRange_mem_neg {start stop step : Int} (hstep : step < 0) {i : Int}
    (hi : i ∈ pyRange start stop step) : stop < i ∧ i ≤ start := by
  simp only [pyRange, List.mem_map, List.mem_range] at hi
  obtain ⟨k, hk, rfl⟩ := hi
  have hk0 : step * k ≤ 0 :=
    mul_nonpos_of_nonpos_of_nonneg hstep.le (Int.natCast_nonneg k)
  refine ⟨?_, by omega⟩
  unfold pyRangeLen at hk
  rw [if_neg (by omega)] at hk
  have hS : 0 < (-step).toNat := by omega
  have h2 : (k + 1) * (-step).toNat ≤ (start - stop + -step - 1).toNat :=
    (Nat.le_div_iff_mul_le hS).1 (Nat.succ_le_of_lt hk)
  by_cases hD : start - stop + -step - 1 < 0
  · have hz : (start - stop + -step - 1).toNat = 0 := by omega
    rw [hz, Nat.zero_div] at hk
    exact absurd hk (Nat.not_lt_zero k)
  · push_neg at hD
    have h3 : ((k + 1) * (-step).toNat : Int)
        ≤ ((start - stop + -step - 1).toNat : Int) := by
      exact_mod_cast h2
    rw [Int.toNat_of_nonneg hD] at h3
    have h4 : ((k + 1) * (-step).toNat : Int) = ((k : Int) + 1) * (-step) := by
      push_cast [Int.toNat_of_nonneg (by omega : (0 : Int) ≤ -step)]
      ring
    nlinarith [h3, h4]

theorem sliceIndices_ok_bounds {s : PySlice} {n : Nat} {a b c : Int}
    (h : sliceIndices s n = .ok (a, b, c)) :
    c ≠ 0 ∧ (0 < c → 0 ≤ a ∧ b ≤ (n : Int))
      ∧ (c < 0 → a ≤ (n : Int) - 1 ∧ -1 ≤ b) := by
  unfold sliceIndices at h
  by_cases h0 : s.step.getD 1 = 0
  · rw [if_pos h0] at h
    exact Except.noConfusion h
  · rw [if_neg h0] at h
    injection h with h
    injection h with ha h
    injection h with hb hc
    subst ha hb hc
    refine ⟨h0, ?_, ?_⟩
    · intro hpos
      constructor
      · cases s.start with
        | none =>
            simp only
            split_ifs <;> omega
        | some v =>
            simp only
            split_ifs <;> omega
      · cases s.stop with
        | none =>
            simp only
            split_ifs <;> omega
        | some v =>
            simp only
            split_ifs <;> omega
    · intro hneg
      constructor
      · cases s.start with
        | none =>
            simp only
            split_ifs <;> omega
        | some v =>
            simp only
            split_ifs <;> omega
      · cases s.stop with
        | none =>
            simp only
            split_ifs <;> omega
        | some v =>
            simp only
            split_ifs <;> omega

theorem filterMap_congr_mem {α β : Type} {l : List α} {f g : α → Option β}
    (h : ∀ a ∈ l, f a = g a) : l.filterMap f = l.filterMap g := by
  induction l with
  | nil => rfl
  | cons x xs ih =>
      rw [List.filterMap_cons, List.filterMap_cons, h x (by simp),
        ih (fun a ha => h a (by simp [ha]))]

theorem viewList_append (d : MusicRunDir) :
    ∀ (l1 l2 : List SliceItem) (xs ys : List Snap),
      viewList d l1 = .ok xs → viewList d l2 = .ok ys →
      viewList d (l1 ++ l2) = .ok (xs ++ ys)
  | [], l2, xs, ys, h1, h2 => by
      injection h1 with h1
      subst h1
      simpa using h2
  | item :: rest, l2, xs, ys, h1, h2 => by
      simp only [viewList] at h1
      cases hx : itemSnaps d item with
      | error e =>
          rw [hx, except_bind_error] at h1
          exact Except.noConfusion h1
      | ok as =>
          rw [hx, except_bind_ok] at h1
          cases hr : viewList d rest with
          | error e =>
              rw [hr, except_bind_error] at h1
              exact Except.noConfusion h1
          | ok bs =>
              rw [hr, except_bind_ok] at h1
              injection h1 with h1
              have ih := viewList_append d rest l2 bs ys hr h2
              show (itemSnaps d item >>= fun as =>
                viewList d (rest ++ l2) >>= fun bs => Except.ok (as ++ bs))
                = Except.ok (xs ++ ys)
              rw [hx, except_bind_ok, ih, except_bind_ok, ← h1,
                List.append_assoc]

/-- C5: indexing a Run with a slice or a tuple returns a lazy view
without touching any file; iterating a slice view yields exactly the
snapshots at the slice's clamped in-range indices whose backing files
exist, skipping missing-file indices instead of raising; iterating a
tuple view yields the concatenation of the per-item results in item
order, without deduplicating repeated indices. -/
theorem slice_tuple_view_contract (d : MusicRunDir) (n : Nat) (s : PySlice)
    (a b c : Int) (l1 l2 : List SliceItem) (xs ys : List Snap)
    (hn : runLen d = .ok n)
    (hs : sliceIndices s n = .ok (a, b, c))
    (h1 : viewList d l1 = .ok xs) (h2 : viewList d l2 = .ok ys) :
    MusicData.getItem d (.slc s) = .ok (.view [.slc s])
    ∧ MusicData.getItem d (.tup l1) = .ok (.view l1)
    ∧ viewList d [.slc s]
        = .ok ((pyRange a b c).filterMap
            (fun i => if 0 ≤ i ∧ i < (n : Int) ∧ d.dumps.contains i.toNat
                      then some ⟨i⟩ else none))
    ∧ viewList d (l1 ++ l2) = .ok (xs ++ ys) := by
  refine ⟨rfl, rfl, ?_, viewList_append d l1 l2 xs ys h1 h2⟩
  have hrange : ∀ i ∈ pyRange a b c, 0 ≤ i ∧ i < (n : Int) := by
    obtain ⟨hc0, hcpos, hcneg⟩ := sliceIndices_ok_bounds hs
    intro i hi
    by_cases hcp : 0 < c
    · obtain ⟨hia, hib⟩ := pyRange_mem_pos hcp hi
      obtain ⟨ha0, hbn⟩ := hcpos hcp
      omega
    · have hcn : c < 0 := by omega
      obtain ⟨hia, hib⟩ := pyRange_mem_neg hcn hi
      obtain ⟨han, hb1⟩ := hcneg hcn
      omega
  have hitem : itemSnaps d (.slc s) = snapsOfIndices d (pyRange a b c) := by
    show (runLen d >>= fun n => sliceIndices s n >>= fun idx =>
      snapsOfIndices d (pyRange idx.1 idx.2.1 idx.2.2)) = _
    rw [hn, except_bind_ok, hs, except_bind_ok]
  have heq : (pyRange a b c).filterMap (fun i => (getItemInt d i).toOption)
      = (pyRange a b c).filterMap
          (fun i => if 0 ≤ i ∧ i < (n : Int) ∧ d.dumps.contains i.toNat
                    then some ⟨i⟩ else none) := by
    apply filterMap_congr_mem
    intro i hi
    obtain ⟨hi0, hi1⟩ := hrange i hi
    rw [getItemInt_inrange hn hi0 hi1]
    by_cases hc : d.dumps.contains i.toNat
    · rw [if_pos hc, if_pos ⟨hi0, hi1, hc⟩]
    · rw [if_neg hc, if_neg (by tauto)]
  show (itemSnaps d (.slc s) >>= fun as =>
    viewList d [] >>= fun bs => Except.ok (as ++ bs)) = _
  rw [hitem, snapsOfIndices_eq hn, except_bind_ok]
  show Except.ok (_ ++ ([] : List Snap)) = _
  rw [List.append_nil, heq]

/-- Witness for C5 on the concrete run `runA` (files 0, 1, 2, 5; length
6): the slice `3:20` yields exactly snapshot 5 (indices 6..19 clamped
away, missing files 3 and 4 skipped); the tuple `(1, 1, 3:20)` yields
snapshot 1 twice followed by snapshot 5; slice and tuple indexing return
views. -/
theorem slice_tuple_view_contract_witness :
    runLen runA = .ok 6
    ∧ sliceIndices ⟨some 3, some 20, none⟩ 6 = .ok (3, 6, 1)
    ∧ viewList runA [.slc ⟨some 3, some 20, none⟩]
        = .ok ((pyRange 3 6 1).filterMap
            (fun i => if 0 ≤ i ∧ i < (6 : Int) ∧ runA.dumps.contains i.toNat
                      then some ⟨i⟩ else none))
    ∧ viewList runA ([.int 1] ++ [.int 1, .slc ⟨some 3, some 20, none⟩])
        = .ok ([⟨1⟩] ++ [⟨1⟩, ⟨5⟩])
    ∧ MusicData.getItem runA (.slc ⟨some 3, some 20, none⟩)
        = .ok (.view [.slc ⟨some 3, some 20, none⟩]) := by
  have h := slice_tuple_view_contract runA 6 ⟨some 3, some 20, none⟩ 3 6 1
    [.int 1] [.int 1, .slc ⟨some 3, some 20, none⟩] [⟨1⟩] [⟨1⟩, ⟨5⟩]
    rfl rfl rfl rfl
  exact ⟨rfl, rfl, h.2.2.1, h.2.2.2, h.1⟩

/-! ## Claim C9 -/

theorem foldl_unpad : ∀ (w n acc : Nat), n < 10 ^ w →
    (padDigits w n).foldl (fun a d => 10 * a + d) acc = acc * 10 ^ w + n
  | 0, n, acc, h => by
      simp only [padDigits, List.foldl_nil, pow_zero]
      omega
  | w + 1, n, acc, h => by
      simp only [padDigits, List.foldl_cons]
      rw [foldl_unpad w (n % 10 ^ w) _ (Nat.mod_lt _ (by positivity))]
      have hdm := Nat.div_add_mod n (10 ^ w)
      calc (10 * acc + n / 10 ^ w) * 10 ^ w + n % 10 ^ w
          = acc * (10 ^ w * 10) + (10 ^ w * (n / 10 ^ w) + n % 10 ^ w) := by ring
        _ = acc * 10 ^ (w + 1) + n := by rw [hdm, pow_succ]

theorem unpad_padDigits {n : Nat} (h : n < 10 ^ 8) :
    unpad (padDigits 8 n) = n := by
  unfold unpad
  rw [foldl_unpad 8 n 0 h]
  omega

theorem lexLtB_padDigits_iff : ∀ (w a b : Nat), a < 10 ^ w → b < 10 ^ w →
    (lexLtB (padDigits w a) (padDigits w b) = true ↔ a < b)
  | 0, a, b, ha, hb => by
      simp only [padDigits]
      have ha0 : a = 0 := by omega
      have hb0 : b = 0 := by omega
      subst ha0 hb0
      simp [lexLtB]
  | w + 1, a, b, ha, hb => by
      simp only [padDigits, lexLtB]
      have hpow : 0 < 10 ^ w := by positivity
      have hma : a % 10 ^ w < 10 ^ w := Nat.mod_lt _ hpow
      have hmb : b % 10 ^ w < 10 ^ w := Nat.mod_lt _ hpow
      have hda := Nat.div_add_mod a (10 ^ w)
      have hdb := Nat.div_add_mod b (10 ^ w)
      by_cases h1 : a / 10 ^ w < b / 10 ^ w
      · rw [if_pos h1]
        have h2 : 10 ^ w * (a / 10 ^ w) + 10 ^ w ≤ 10 ^ w * (b / 10 ^ w) := by
          have h3 := Nat.mul_le_mul_left (10 ^ w) (Nat.succ_le_of_lt h1)
          rwa [Nat.mul_succ] at h3
        constructor
        · intro _
          omega
        · intro _
          rfl
      · by_cases h1' : b / 10 ^ w < a / 10 ^ w
        · rw [if_neg h1, if_pos h1']
          have h2 : 10 ^ w * (b / 10 ^ w) + 10 ^ w ≤ 10 ^ w * (a / 10 ^ w) := by
            have h3 := Nat.mul_le_mul_left (10 ^ w) (Nat.succ_le_of_lt h1')
            rwa [Nat.mul_succ] at h3
          constructor
          · intro hx
            exact absurd hx (by decide)
          · intro hx
            omega
        · rw [if_neg h1, if_neg h1']
          rw [lexLtB_padDigits_iff w _ _ hma hmb]
          have heq : 10 ^ w * (a / 10 ^ w) = 10 ^ w * (b / 10 ^ w) := by
            have : a / 10 ^ w = b / 10 ^ w := by omega
            rw [this]
          omega

theorem foldl_lexMax : ∀ (xs : List Nat) (a : Nat), a < 10 ^ 8 →
    (∀ x ∈ xs, x < 10 ^ 8) →
    (xs.map (padDigits 8)).foldl (fun m y => if lexLtB m y then y else m)
        (padDigits 8 a)
      = padDigits 8 (xs.foldl (fun m y => if m < y then y else m) a)
  | [], _, _, _ => rfl
  | x :: xs, a, ha, hxs => by
      simp only [List.map_cons, List.foldl_cons]
      have hx : x < 10 ^ 8 := hxs x (by simp)
      have hstep : (if lexLtB (padDigits 8 a) (padDigits 8 x) then padDigits 8 x
          else padDigits 8 a) = padDigits 8 (if a < x then x else a) := by
        by_cases hax : a < x
        · rw [if_pos ((lexLtB_padDigits_iff 8 a x ha hx).2 hax), if_pos hax]
        · have hne : ¬ lexLtB (padDigits 8 a) (padDigits 8 x) = true := fun hl =>
            hax ((lexLtB_padDigits_iff 8 a x ha hx).1 hl)
          rw [if_neg hne, if_neg hax]
      rw [hstep]
      exact foldl_lexMax xs _ (by split_ifs <;> assumption)
        (fun y hy => hxs y (by simp [hy]))

theorem foldl_natMax_mem : ∀ (xs : List Nat) (a : Nat),
    xs.foldl (fun m y => if m < y then y else m) a ∈ a :: xs
  | [], a => by simp
  | x :: xs, a => by
      simp only [List.foldl_cons]
      have h := foldl_natMax_mem xs (if a < x then x else a)
      rcases List.mem_cons.1 h with h | h
      · rw [h]
        by_cases hax : a < x
        · simp [hax]
        · simp [hax]
      · simp [h]

theorem foldl_natMax_ge : ∀ (xs : List Nat) (a : Nat) (y : Nat),
    y ∈ a :: xs → y ≤ xs.foldl (fun m y => if m < y then y else m) a
  | [], a, y, hy => by
      simp only [List.mem_cons, List.not_mem_nil, or_false] at hy
      subst hy
      simp
  | x :: xs, a, y, hy => by
      simp only [List.foldl_cons]
      have hstep1 : a ≤ if a < x then x else a := by split_ifs <;> omega
      have hstep2 : x ≤ if a < x then x else a := by split_ifs <;> omega
      have hacc : (if a < x then x else a)
          ≤ xs.foldl (fun m y => if m < y then y else m) (if a < x then x else a) :=
        foldl_natMax_ge xs _ _ (by simp)
      rcases List.mem_cons.1 hy with h | h
      · subst h
        exact le_trans hstep1 hacc
      · rcases List.mem_cons.1 h with h | h
        · subst h
          exact le_trans hstep2 hacc
        · exact foldl_natMax_ge xs _ y (by simp [h])

/-- C9: for a run directory containing at least one dump file matching
the naming pattern (all indices in the 8-digit range the format covers),
`_len` is the index embedded in the highest-numbered matching file plus
one — the lexicographic maximum over the zero-padded file names agrees
with the numeric maximum; a directory scan finding zero matching files
is a fatal ValueError (from `max()` on an empty sequence), not a length
of zero. -/
theorem run_len_spec (d : MusicRunDir) (m : Nat)
    (hb : ∀ i ∈ d.dumps, i < 10 ^ 8)
    (hm : m ∈ d.dumps) (hmax : ∀ i ∈ d.dumps, i ≤ m) :
    runLen d = .ok (m + 1)
    ∧ (∀ d0 : MusicRunDir, d0.dumps = [] → runLen d0 = .error .valueError) := by
  refine ⟨?_, ?_⟩
  · obtain ⟨x, xs, hcons⟩ : ∃ x xs, d.dumps = x :: xs := by
      cases hd : d.dumps with
      | nil =>
          rw [hd] at hm
          exact absurd hm (List.not_mem_nil m)
      | cons x xs => exact ⟨x, xs, rfl⟩
    have h1 : runLen d = .ok (unpad ((xs.map (padDigits 8)).foldl
        (fun m y => if lexLtB m y then y else m) (padDigits 8 x)) + 1) := by
      unfold runLen
      rw [hcons]
      rfl
    rw [h1, foldl_lexMax xs x (hb x (by rw [hcons]; simp))
      (fun y hy => hb y (by rw [hcons]; simp [hy]))]
    have hMmem : xs.foldl (fun m y => if m < y then y else m) x ∈ x :: xs :=
      foldl_natMax_mem xs x
    have hMlt : xs.foldl (fun m y => if m < y then y else m) x < 10 ^ 8 :=
      hb _ (by rw [hcons]; exact hMmem)
    have hMm : xs.foldl (fun m y => if m < y then y else m) x = m := by
      apply Nat.le_antisymm
      · exact hmax _ (by rw [hcons]; exact hMmem)
      · exact foldl_natMax_ge xs x m (by rw [← hcons]; exact hm)
    rw [unpad_padDigits hMlt, hMm]
  · intro d0 h0
    unfold runLen
    rw [h0]
    rfl

/-- Witness for C9: the run directory with files 0, 1, 2, 5 has length
5 + 1 = 6, and the empty directory is a fatal ValueError. -/
theorem run_len_spec_witness :
    (∀ i ∈ runA.dumps, i < 10 ^ 8)
    ∧ 5 ∈ runA.dumps
    ∧ (∀ i ∈ runA.dumps, i ≤ 5)
    ∧ runLen runA = .ok 6
    ∧ runLen ⟨[]⟩ = .error .valueError := by
  have h := run_len_spec runA 5 (by decide) (by decide) (by decide)
  exact ⟨by decide, by decide, by decide, h.1, h.2 ⟨[]⟩ rfl⟩

end MusicScripts
